import Mathlib

/-!
# Verification of the Overlay Manager API (src/main.py)

Shallow embedding of the in-memory overlay store of `src/main.py`:
the pydantic models `Overlay`, `OverlayCreate`, `OverlayUpdate` become
Lean structures with explicit, decidable field validation; the five
request handlers become pure functions on an explicit `StoreState`
(the module-level globals `_overlays` and `_next_id`).

Python floats are modelled as rationals (all range bounds here are exact
and no arithmetic is performed on the values); Python `int` is `Int`;
JSON-level field presence is modelled with `Option` (and, for the update
payload whose pydantic fields are themselves `Optional`, with
`Option (Option _)`: `none` = omitted, `some none` = explicit null).
-/

namespace OverlayAPI

/-- The stored entity: pydantic model `Overlay` of src/main.py. -/
structure Overlay where
  id : Int
  name : String
  type : String
  x : ℚ
  y : ℚ
  w : ℚ
  h : ℚ
  opacity : ℚ
  color : String
  content : Option String
  visible : Bool
  deriving DecidableEq

/-- `constr(min_length=1, max_length=100)` – the `name` constraint. -/
def validName (s : String) : Bool := decide (1 ≤ s.length ∧ s.length ≤ 100)

/-- `constr(min_length=1)` – the `type` and `color` constraint. -/
def validTag (s : String) : Bool := decide (1 ≤ s.length)

/-- `confloat(ge=0, le=100)` – the `x`, `y`, `w`, `h` constraint. -/
def validPct (q : ℚ) : Bool := decide (0 ≤ q ∧ q ≤ 100)

/-- `confloat(ge=0.0, le=1.0)` – the `opacity` constraint. -/
def validOpacity (q : ℚ) : Bool := decide (0 ≤ q ∧ q ≤ 1)

/-- All declarative field constraints of the `Overlay` model
(`content` and `visible` are unconstrained). -/
def overlayValid (o : Overlay) : Bool :=
  validName o.name && validTag o.type && validPct o.x && validPct o.y &&
    validPct o.w && validPct o.h && validOpacity o.opacity && validTag o.color

/-- A validated create payload: pydantic model `OverlayCreate` after
parsing, with every default filled in. -/
structure OverlayCreate where
  name : String
  type : String
  x : ℚ
  y : ℚ
  w : ℚ
  h : ℚ
  opacity : ℚ
  color : String
  content : Option String
  visible : Bool
  deriving DecidableEq

/-- The JSON body of a POST /api/overlays request: `none` means the key
is omitted (required for `name`/`type`, filled from the declared default
otherwise). -/
structure CreateJson where
  name : Option String
  type : Option String
  x : Option ℚ
  y : Option ℚ
  w : Option ℚ
  h : Option ℚ
  opacity : Option ℚ
  color : Option String
  content : Option String
  visible : Option Bool
  deriving DecidableEq

/-- Validate a field only when it was supplied. -/
def checkOpt {α : Type} (f : α → Bool) : Option α → Bool
  | none => true
  | some v => f v

/-- Boundary validation of a create request (pydantic parsing of
`OverlayCreate`): required fields must be present, each supplied field
must satisfy its constraint, omitted fields take the declared default.
`none` is a 422 ValidationError. -/
def parseCreate (j : CreateJson) : Option OverlayCreate :=
  match j.name, j.type with
  | some nm, some ty =>
    if validName nm && validTag ty && checkOpt validPct j.x && checkOpt validPct j.y &&
        checkOpt validPct j.w && checkOpt validPct j.h && checkOpt validOpacity j.opacity &&
        checkOpt validTag j.color then
      some ⟨nm, ty, j.x.getD 10, j.y.getD 10, j.w.getD 20, j.h.getD 10,
            j.opacity.getD 1, j.color.getD "#ff0000", j.content, j.visible.getD true⟩
    else none
  | _, _ => none

/-- The parsed update payload: pydantic model `OverlayUpdate`, every
field `Optional[...] = None`.  This is what `payload.dict()` exposes to
the handler: a `none` field carries no trace of whether the caller
omitted it or sent an explicit null. -/
structure OverlayUpdate where
  name : Option String
  type : Option String
  x : Option ℚ
  y : Option ℚ
  w : Option ℚ
  h : Option ℚ
  opacity : Option ℚ
  color : Option String
  content : Option String
  visible : Option Bool
  deriving DecidableEq

/-- The JSON body of a PUT /api/overlays/{id} request, keeping the
wire-level distinction pydantic erases: `none` = key omitted,
`some none` = key present with value null, `some (some v)` = value. -/
structure UpdateJson where
  name : Option (Option String)
  type : Option (Option String)
  x : Option (Option ℚ)
  y : Option (Option ℚ)
  w : Option (Option ℚ)
  h : Option (Option ℚ)
  opacity : Option (Option ℚ)
  color : Option (Option String)
  content : Option (Option String)
  visible : Option (Option Bool)
  deriving DecidableEq

/-- pydantic `Optional[...] = None` parsing of one field: an omitted key
and an explicit null both become `None` on the model instance. -/
def collapseField {α : Type} : Option (Option α) → Option α
  | none => none
  | some none => none
  | some (some v) => some v

/-- The `OverlayUpdate` instance pydantic builds from the request body
(before constraint checking). -/
def toOverlayUpdate (j : UpdateJson) : OverlayUpdate :=
  ⟨collapseField j.name, collapseField j.type, collapseField j.x, collapseField j.y,
   collapseField j.w, collapseField j.h, collapseField j.opacity, collapseField j.color,
   collapseField j.content, collapseField j.visible⟩

/-- Constraint check of an `OverlayUpdate`: every supplied (non-null)
value must satisfy its field constraint; null/omitted fields pass. -/
def overlayUpdateValid (p : OverlayUpdate) : Bool :=
  checkOpt validName p.name && checkOpt validTag p.type && checkOpt validPct p.x &&
    checkOpt validPct p.y && checkOpt validPct p.w && checkOpt validPct p.h &&
    checkOpt validOpacity p.opacity && checkOpt validTag p.color

/-- Boundary validation of an update request body; `none` is a 422
ValidationError (raised by FastAPI before the handler runs). -/
def parseUpdate (j : UpdateJson) : Option OverlayUpdate :=
  if overlayUpdateValid (toOverlayUpdate j) then some (toOverlayUpdate j) else none

/-- The two error kinds of the service (§7 of the spec), plus the
defensive 500 branch a failing `Overlay(**data)` constructor would
raise inside a handler. -/
inductive ApiError where
  | validation
  | notFound
  | internal
  deriving DecidableEq

/-- The module-level mutable state of src/main.py: `_overlays` and
`_next_id`. -/
structure StoreState where
  overlays : List Overlay
  nextId : Int
  deriving DecidableEq

/-- Initial state: `_overlays = []`, `_next_id = 1`. -/
def initState : StoreState := ⟨[], 1⟩

/-- `Overlay(id=_next_id, **payload.dict())`. -/
def mkOverlay (i : Int) (p : OverlayCreate) : Overlay :=
  ⟨i, p.name, p.type, p.x, p.y, p.w, p.h, p.opacity, p.color, p.content, p.visible⟩

/-- GET /api/overlays. -/
def list_overlays (s : StoreState) : List Overlay := s.overlays

/-- POST /api/overlays: validate the payload at the boundary, build the
overlay with the next id (the `Overlay` constructor re-validates; a
failure there would abort before mutating anything), advance the
counter, append. Returns the state after the request and the response. -/
def create_overlay (s : StoreState) (j : CreateJson) : StoreState × Except ApiError Overlay :=
  match parseCreate j with
  | none => (s, .error .validation)
  | some p =>
    if overlayValid (mkOverlay s.nextId p) then
      (⟨s.overlays ++ [mkOverlay s.nextId p], s.nextId + 1⟩, .ok (mkOverlay s.nextId p))
    else
      (s, .error .internal)

/-- The linear search of `get_overlay`: first overlay whose id matches. -/
def getLoop (oid : Int) : List Overlay → Except ApiError Overlay
  | [] => .error .notFound
  | ov :: rest => if ov.id = oid then .ok ov else getLoop oid rest

/-- GET /api/overlays/{overlay_id}. -/
def get_overlay (s : StoreState) (oid : Int) : Except ApiError Overlay :=
  getLoop oid s.overlays

/-- The merge step of `update_overlay`: `data = ov.dict()`, overwrite
with the non-None payload entries, rebuild. The id is never in the
payload, so it is kept; a `none` payload field keeps the stored value. -/
def applyUpdate (ov : Overlay) (p : OverlayUpdate) : Overlay :=
  { ov with
    name := p.name.getD ov.name
    type := p.type.getD ov.type
    x := p.x.getD ov.x
    y := p.y.getD ov.y
    w := p.w.getD ov.w
    h := p.h.getD ov.h
    opacity := p.opacity.getD ov.opacity
    color := p.color.getD ov.color
    content := match p.content with
      | some c => some c
      | none => ov.content
    visible := p.visible.getD ov.visible }

/-- The loop of `update_overlay`: find the first overlay with the given
id, merge, re-validate the whole candidate (`Overlay(**data)`), replace
it in place. -/
def updateLoop (oid : Int) (p : OverlayUpdate) :
    List Overlay → Except ApiError (Overlay × List Overlay)
  | [] => .error .notFound
  | ov :: rest =>
    if ov.id = oid then
      if overlayValid (applyUpdate ov p) then .ok (applyUpdate ov p, applyUpdate ov p :: rest)
      else .error .internal
    else
      match updateLoop oid p rest with
      | .ok (u, rest2) => .ok (u, ov :: rest2)
      | .error e => .error e

/-- PUT /api/overlays/{overlay_id}: body validation happens before the
handler runs, so a malformed body is a 422 even for an unknown id. -/
def update_overlay (s : StoreState) (oid : Int) (j : UpdateJson) :
    StoreState × Except ApiError Overlay :=
  match parseUpdate j with
  | none => (s, .error .validation)
  | some p =>
    match updateLoop oid p s.overlays with
    | .ok (u, l) => (⟨l, s.nextId⟩, .ok u)
    | .error e => (s, .error e)

/-- The loop of `delete_overlay`: pop the first overlay with the given
id. -/
def deleteLoop (oid : Int) : List Overlay → Option (List Overlay)
  | [] => none
  | ov :: rest =>
    if ov.id = oid then some rest
    else (deleteLoop oid rest).map (fun l => ov :: l)

/-- DELETE /api/overlays/{overlay_id}: 204 with no body on success. -/
def delete_overlay (s : StoreState) (oid : Int) : StoreState × Except ApiError Unit :=
  match deleteLoop oid s.overlays with
  | some l => (⟨l, s.nextId⟩, .ok ())
  | none => (s, .error .notFound)

/-- One API request, for reasoning about reachable store states. -/
inductive Op where
  | opList : Op
  | opCreate : CreateJson → Op
  | opGet : Int → Op
  | opUpdate : Int → UpdateJson → Op
  | opDelete : Int → Op

/-- The store state after serving one request. -/
def applyOp (s : StoreState) : Op → StoreState
  | .opList => s
  | .opCreate j => (create_overlay s j).1
  | .opGet _ => s
  | .opUpdate oid j => (update_overlay s oid j).1
  | .opDelete oid => (delete_overlay s oid).1

/-- The store state after serving a sequence of requests from startup. -/
def runOps (ops : List Op) : StoreState := ops.foldl applyOp initState

/-- The ids assigned by the successful Create calls of a request
sequence, in order. -/
def assignedIds : StoreState → List Op → List Int
  | _, [] => []
  | s, .opCreate j :: rest =>
    match create_overlay s j with
    | (s2, .ok ov) => ov.id :: assignedIds s2 rest
    | (s2, .error _) => assignedIds s2 rest
  | s, .opList :: rest => assignedIds s rest
  | s, .opGet _ :: rest => assignedIds s rest
  | s, .opUpdate oid j :: rest => assignedIds (update_overlay s oid j).1 rest
  | s, .opDelete oid :: rest => assignedIds (delete_overlay s oid).1 rest

/-! ## Helper lemmas -/

lemma checkOpt_getD {α : Type} (f : α → Bool) (x : Option α) (d : α)
    (hx : checkOpt f x = true) (hd : f d = true) : f (x.getD d) = true := by
  cases x with
  | none => simpa using hd
  | some v => simpa [checkOpt] using hx

lemma parseCreate_inv {j : CreateJson} {p : OverlayCreate} (h : parseCreate j = some p) :
    p.x = j.x.getD 10 ∧ p.y = j.y.getD 10 ∧ p.w = j.w.getD 20 ∧ p.h = j.h.getD 10 ∧
    p.opacity = j.opacity.getD 1 ∧ p.color = j.color.getD "#ff0000" ∧
    p.content = j.content ∧ p.visible = j.visible.getD true ∧
    ∀ i : Int, overlayValid (mkOverlay i p) = true := by
  unfold parseCreate at h
  split at h
  case _ nm ty hnm hty =>
    split at h
    case isTrue hcond =>
      injection h with h
      subst h
      simp only [Bool.and_eq_true, and_assoc] at hcond
      obtain ⟨h1, h2, h3, h4, h5, h6, h7, h8⟩ := hcond
      refine ⟨rfl, rfl, rfl, rfl, rfl, rfl, rfl, rfl, ?_⟩
      intro i
      simp only [overlayValid, mkOverlay, Bool.and_eq_true, and_assoc]
      exact ⟨h1, h2, checkOpt_getD _ _ _ h3 (by decide), checkOpt_getD _ _ _ h4 (by decide),
             checkOpt_getD _ _ _ h5 (by decide), checkOpt_getD _ _ _ h6 (by decide),
             checkOpt_getD _ _ _ h7 (by decide), checkOpt_getD _ _ _ h8 (by decide)⟩
    case isFalse => simp at h
  case _ => simp at h

lemma parseUpdate_inv {j : UpdateJson} {p : OverlayUpdate} (h : parseUpdate j = some p) :
    p = toOverlayUpdate j ∧ overlayUpdateValid p = true := by
  unfold parseUpdate at h
  split at h
  case isTrue hv =>
    injection h with h
    subst h
    exact ⟨rfl, hv⟩
  case isFalse => simp at h

lemma applyUpdate_id (ov : Overlay) (p : OverlayUpdate) : (applyUpdate ov p).id = ov.id := rfl

lemma applyUpdate_valid {ov : Overlay} {p : OverlayUpdate}
    (hov : overlayValid ov = true) (hp : overlayUpdateValid p = true) :
    overlayValid (applyUpdate ov p) = true := by
  simp only [overlayValid, Bool.and_eq_true, and_assoc] at hov
  simp only [overlayUpdateValid, Bool.and_eq_true, and_assoc] at hp
  obtain ⟨o1, o2, o3, o4, o5, o6, o7, o8⟩ := hov
  obtain ⟨p1, p2, p3, p4, p5, p6, p7, p8⟩ := hp
  simp only [overlayValid, applyUpdate, Bool.and_eq_true, and_assoc]
  exact ⟨checkOpt_getD _ _ _ p1 o1, checkOpt_getD _ _ _ p2 o2, checkOpt_getD _ _ _ p3 o3,
         checkOpt_getD _ _ _ p4 o4, checkOpt_getD _ _ _ p5 o5, checkOpt_getD _ _ _ p6 o6,
         checkOpt_getD _ _ _ p7 o7, checkOpt_getD _ _ _ p8 o8⟩

lemma getLoop_append_of_no_match {oid : Int} {l1 : List Overlay}
    (h : ∀ o ∈ l1, o.id ≠ oid) (l2 : List Overlay) :
    getLoop oid (l1 ++ l2) = getLoop oid l2 := by
  induction l1 with
  | nil => rfl
  | cons ov rest ih =>
    have hov : ov.id ≠ oid := h ov (List.mem_cons_self ov rest)
    simp only [List.cons_append, getLoop, if_neg hov]
    exact ih (fun o ho => h o (List.mem_cons_of_mem _ ho))

lemma getLoop_no_match {oid : Int} {l : List Overlay}
    (h : ∀ o ∈ l, o.id ≠ oid) : getLoop oid l = .error .notFound := by
  have := getLoop_append_of_no_match h []
  simpa [getLoop] using this

lemma updateLoop_ok {oid : Int} {p : OverlayUpdate} {l : List Overlay} :
    ∀ {u : Overlay} {l' : List Overlay}, updateLoop oid p l = .ok (u, l') →
      overlayValid u = true ∧ l'.map Overlay.id = l.map Overlay.id ∧
      (∃ w ∈ l, u = applyUpdate w p) ∧ ∀ o ∈ l', o ∈ l ∨ o = u := by
  induction l with
  | nil => intro u l' h; simp [updateLoop] at h
  | cons ov rest ih =>
    intro u l' h
    rw [updateLoop] at h
    split at h
    case isTrue hid =>
      split at h
      case isTrue hv =>
        injection h with h
        rw [Prod.mk.injEq] at h
        obtain ⟨hu, hl⟩ := h
        subst hu; subst hl
        refine ⟨hv, by simp [applyUpdate_id], ⟨ov, List.mem_cons_self ov rest, rfl⟩, ?_⟩
        intro o ho
        rcases List.mem_cons.mp ho with h1 | h1
        · right; exact h1
        · left; exact List.mem_cons_of_mem _ h1
      case isFalse => simp at h
    case isFalse hid =>
      split at h
      case _ u2 rest2 heq =>
        injection h with h
        rw [Prod.mk.injEq] at h
        obtain ⟨hu, hl⟩ := h
        subst hu; subst hl
        obtain ⟨hv, hmap, ⟨w, hw, hwu⟩, hmem⟩ := ih heq
        refine ⟨hv, by simp [hmap], ⟨w, List.mem_cons_of_mem _ hw, hwu⟩, ?_⟩
        intro o ho
        rcases List.mem_cons.mp ho with h1 | h1
        · left; rw [h1]; exact List.mem_cons_self ov rest
        · rcases hmem o h1 with h2 | h2
          · left; exact List.mem_cons_of_mem _ h2
          · right; exact h2
      case _ => simp at h

lemma updateLoop_no_match {oid : Int} {p : OverlayUpdate} {l : List Overlay}
    (h : ∀ o ∈ l, o.id ≠ oid) : updateLoop oid p l = .error .notFound := by
  induction l with
  | nil => rfl
  | cons ov rest ih =>
    have hov : ov.id ≠ oid := h ov (List.mem_cons_self ov rest)
    rw [updateLoop, if_neg hov, ih (fun o ho => h o (List.mem_cons_of_mem _ ho))]

lemma updateLoop_found {oid : Int} {p : OverlayUpdate} {O : Overlay} (l1 l2 : List Overlay)
    (hO : O.id = oid) (h1 : ∀ o ∈ l1, o.id ≠ oid)
    (hv : overlayValid (applyUpdate O p) = true) :
    updateLoop oid p (l1 ++ O :: l2) = .ok (applyUpdate O p, l1 ++ applyUpdate O p :: l2) := by
  induction l1 with
  | nil => simp [updateLoop, hO, hv]
  | cons ov rest ih =>
    have hov : ov.id ≠ oid := h1 ov (List.mem_cons_self ov rest)
    rw [List.cons_append, updateLoop, if_neg hov,
        ih (fun o ho => h1 o (List.mem_cons_of_mem _ ho))]
    rfl

lemma updateLoop_error {oid : Int} {p : OverlayUpdate} {l : List Overlay}
    (hval : ∀ o ∈ l, overlayValid (applyUpdate o p) = true) :
    ∀ {e : ApiError}, updateLoop oid p l = .error e → e = .notFound := by
  induction l with
  | nil => intro e h; rw [updateLoop] at h; injection h with h; exact h.symm
  | cons ov rest ih =>
    intro e h
    rw [updateLoop] at h
    split at h
    case isTrue hid =>
      split at h
      case isTrue hv => simp at h
      case isFalse hv =>
        exact absurd (hval ov (List.mem_cons_self ov rest)) hv
    case isFalse hid =>
      split at h
      case _ => simp at h
      case _ e2 heq =>
        injection h with h
        subst h
        exact ih (fun o ho => hval o (List.mem_cons_of_mem _ ho)) heq

lemma deleteLoop_no_match {oid : Int} {l : List Overlay}
    (h : ∀ o ∈ l, o.id ≠ oid) : deleteLoop oid l = none := by
  induction l with
  | nil => rfl
  | cons ov rest ih =>
    have hov : ov.id ≠ oid := h ov (List.mem_cons_self ov rest)
    rw [deleteLoop, if_neg hov, ih (fun o ho => h o (List.mem_cons_of_mem _ ho))]
    rfl

lemma deleteLoop_found {oid : Int} {O : Overlay} (l1 l2 : List Overlay)
    (hO : O.id = oid) (h1 : ∀ o ∈ l1, o.id ≠ oid) :
    deleteLoop oid (l1 ++ O :: l2) = some (l1 ++ l2) := by
  induction l1 with
  | nil => simp [deleteLoop, hO]
  | cons ov rest ih =>
    have hov : ov.id ≠ oid := h1 ov (List.mem_cons_self ov rest)
    rw [List.cons_append, deleteLoop, if_neg hov,
        ih (fun o ho => h1 o (List.mem_cons_of_mem _ ho))]
    rfl

lemma deleteLoop_sublist {oid : Int} {l : List Overlay} :
    ∀ {l' : List Overlay}, deleteLoop oid l = some l' → l'.Sublist l := by
  induction l with
  | nil => intro l' h; simp [deleteLoop] at h
  | cons ov rest ih =>
    intro l' h
    rw [deleteLoop] at h
    split at h
    case isTrue hid =>
      injection h with h
      subst h
      exact List.sublist_cons_self _ _
    case isFalse hid =>
      cases hrec : deleteLoop oid rest with
      | none => rw [hrec] at h; simp at h
      | some rest2 =>
        rw [hrec] at h
        simp only [Option.map_some'] at h
        injection h with h
        subst h
        exact List.Sublist.cons₂ ov (ih hrec)

/-! ## The store invariant -/

/-- Well-formedness of a store state: every stored overlay satisfies all
field constraints, ids are pairwise distinct, and every stored id is
below the counter. -/
def WF (s : StoreState) : Prop :=
  (∀ o ∈ s.overlays, overlayValid o = true) ∧
  (s.overlays.map Overlay.id).Pairwise (· ≠ ·) ∧
  (∀ o ∈ s.overlays, o.id < s.nextId)

lemma WF_initState : WF initState := by
  refine ⟨?_, ?_, ?_⟩ <;> simp [initState]

lemma WF_create {s : StoreState} (j : CreateJson) (h : WF s) :
    WF (create_overlay s j).1 := by
  obtain ⟨hval, hdist, hlt⟩ := h
  unfold create_overlay
  split
  case _ => exact ⟨hval, hdist, hlt⟩
  case _ p hp =>
    split
    case isTrue hv =>
      dsimp only
      refine ⟨?_, ?_, ?_⟩
      · intro o ho
        rcases List.mem_append.mp ho with h1 | h1
        · exact hval o h1
        · rw [List.mem_singleton.mp h1]; exact hv
      · rw [List.map_append]
        refine List.pairwise_append.mpr ⟨hdist, by simp, ?_⟩
        intro a ha b hb
        rw [List.mem_singleton.mp hb]
        obtain ⟨o, ho, rfl⟩ := List.mem_map.mp ha
        exact ne_of_lt (hlt o ho)
      · intro o ho
        rcases List.mem_append.mp ho with h1 | h1
        · exact lt_trans (hlt o h1) (lt_add_one s.nextId)
        · rw [List.mem_singleton.mp h1]; simp [mkOverlay]
    case isFalse => exact ⟨hval, hdist, hlt⟩

lemma WF_update {s : StoreState} (oid : Int) (j : UpdateJson) (h : WF s) :
    WF (update_overlay s oid j).1 := by
  obtain ⟨hval, hdist, hlt⟩ := h
  unfold update_overlay
  split
  case _ => exact ⟨hval, hdist, hlt⟩
  case _ p hp =>
    split
    case _ u l heq =>
      obtain ⟨hu, hmap, ⟨w, hw, hwu⟩, hmem⟩ := updateLoop_ok heq
      refine ⟨?_, ?_, ?_⟩
      · intro o ho
        rcases hmem o ho with h1 | h1
        · exact hval o h1
        · rw [h1]; exact hu
      · rw [hmap]; exact hdist
      · intro o ho
        have hid : o.id ∈ s.overlays.map Overlay.id := by
          rw [← hmap]; exact List.mem_map_of_mem Overlay.id ho
        obtain ⟨o2, ho2, heq2⟩ := List.mem_map.mp hid
        rw [← heq2]; exact hlt o2 ho2
    case _ => exact ⟨hval, hdist, hlt⟩

lemma WF_delete {s : StoreState} (oid : Int) (h : WF s) :
    WF (delete_overlay s oid).1 := by
  obtain ⟨hval, hdist, hlt⟩ := h
  unfold delete_overlay
  split
  case _ l heq =>
    have hsub := deleteLoop_sublist heq
    exact ⟨fun o ho => hval o (hsub.mem ho),
           List.Pairwise.sublist (hsub.map Overlay.id) hdist,
           fun o ho => hlt o (hsub.mem ho)⟩
  case _ => exact ⟨hval, hdist, hlt⟩

lemma WF_applyOp {s : StoreState} (op : Op) (h : WF s) : WF (applyOp s op) := by
  cases op with
  | opList => exact h
  | opCreate j => exact WF_create j h
  | opGet _ => exact h
  | opUpdate oid j => exact WF_update oid j h
  | opDelete oid => exact WF_delete oid h

lemma WF_foldl : ∀ (ops : List Op) (s : StoreState), WF s → WF (ops.foldl applyOp s)
  | [], _, h => h
  | op :: rest, s, h => WF_foldl rest (applyOp s op) (WF_applyOp op h)

lemma WF_runOps (ops : List Op) : WF (runOps ops) :=
  WF_foldl ops initState WF_initState

/-! ## Id assignment lemmas -/

lemma create_ok_inv {s s2 : StoreState} {j : CreateJson} {ov : Overlay}
    (h : create_overlay s j = (s2, .ok ov)) :
    ov.id = s.nextId ∧ s2.nextId = s.nextId + 1 ∧
    s2.overlays = s.overlays ++ [ov] := by
  unfold create_overlay at h
  split at h
  case _ => simp at h
  case _ p hp =>
    split at h
    case isTrue hv =>
      rw [Prod.mk.injEq] at h
      obtain ⟨hs, hov⟩ := h
      injection hov with hov
      subst hov
      subst hs
      exact ⟨rfl, rfl, rfl⟩
    case isFalse => simp at h

lemma create_error_inv {s s2 : StoreState} {j : CreateJson} {e : ApiError}
    (h : create_overlay s j = (s2, .error e)) : s2 = s := by
  unfold create_overlay at h
  split at h
  case _ =>
    rw [Prod.mk.injEq] at h
    exact h.1.symm
  case _ p hp =>
    split at h
    case isTrue => simp at h
    case isFalse =>
      rw [Prod.mk.injEq] at h
      exact h.1.symm

lemma applyOp_nextId_le (s : StoreState) (op : Op) : s.nextId ≤ (applyOp s op).nextId := by
  cases op with
  | opList => exact le_refl _
  | opGet _ => exact le_refl _
  | opCreate j =>
    show s.nextId ≤ (create_overlay s j).1.nextId
    rcases h : create_overlay s j with ⟨s2, r⟩
    cases r with
    | ok ov => rw [(create_ok_inv h).2.1]; omega
    | error e => rw [create_error_inv h]
  | opUpdate oid j =>
    show s.nextId ≤ (update_overlay s oid j).1.nextId
    unfold update_overlay
    split
    case _ => exact le_refl _
    case _ p hp =>
      split
      case _ => exact le_refl _
      case _ => exact le_refl _
  | opDelete oid =>
    show s.nextId ≤ (delete_overlay s oid).1.nextId
    unfold delete_overlay
    split
    case _ => exact le_refl _
    case _ => exact le_refl _

lemma assignedIds_lb : ∀ (ops : List Op) (s : StoreState),
    ∀ i ∈ assignedIds s ops, s.nextId ≤ i := by
  intro ops
  induction ops with
  | nil => intro s i hi; simp [assignedIds] at hi
  | cons op rest ih =>
    intro s i hi
    cases op with
    | opCreate j =>
      rw [assignedIds] at hi
      split at hi
      case _ s2 ov heq =>
        rcases List.mem_cons.mp hi with h1 | h1
        · rw [h1, (create_ok_inv heq).1]
        · have h2 := ih s2 i h1
          have h3 := (create_ok_inv heq).2.1
          omega
      case _ s2 e heq =>
        rw [create_error_inv heq] at hi
        exact ih s i hi
    | opList =>
      rw [assignedIds] at hi
      exact ih _ i hi
    | opGet oid =>
      rw [assignedIds] at hi
      exact ih _ i hi
    | opUpdate oid j =>
      rw [assignedIds] at hi
      exact le_trans (applyOp_nextId_le s (.opUpdate oid j)) (ih _ i hi)
    | opDelete oid =>
      rw [assignedIds] at hi
      exact le_trans (applyOp_nextId_le s (.opDelete oid)) (ih _ i hi)

lemma assignedIds_pairwise_lt : ∀ (ops : List Op) (s : StoreState),
    (assignedIds s ops).Pairwise (· < ·) := by
  intro ops
  induction ops with
  | nil => intro s; simp [assignedIds]
  | cons op rest ih =>
    intro s
    cases op with
    | opCreate j =>
      rw [assignedIds]
      split
      case _ s2 ov heq =>
        refine List.Pairwise.cons ?_ (ih s2)
        intro b hb
        have h1 := assignedIds_lb rest s2 b hb
        have h2 := (create_ok_inv heq).1
        have h3 := (create_ok_inv heq).2.1
        omega
      case _ s2 e heq => exact ih s2
    | opList => rw [assignedIds]; exact ih _
    | opGet oid => rw [assignedIds]; exact ih _
    | opUpdate oid j => rw [assignedIds]; exact ih _
    | opDelete oid => rw [assignedIds]; exact ih _

/-! ## Concrete sample data (for witnesses) -/

/-- The overlay of the spec's end-to-end scenario, as created with id 1. -/
def sampleOverlay1 : Overlay :=
  ⟨1, "Lower Third", "text", 0, 80, 100, 20, 1, "#ff0000", some "Breaking News", true⟩

def sampleOverlay2 : Overlay :=
  ⟨2, "Logo", "image", 5, 5, 10, 10, 1, "#00ff00", none, true⟩

def sampleOverlay3 : Overlay :=
  ⟨3, "Frame", "box", 50, 50, 20, 10, 1, "#0000ff", none, false⟩

/-- A store holding overlays with ids 1, 2, 3 and counter 4. -/
def sampleState : StoreState := ⟨[sampleOverlay1, sampleOverlay2, sampleOverlay3], 4⟩

/-- PUT body with every key omitted. -/
def emptyUpdateJson : UpdateJson := ⟨none, none, none, none, none, none, none, none, none, none⟩

/-- PUT body with `name` and `content` explicitly null and every other key
omitted. -/
def nullFieldsJson : UpdateJson :=
  ⟨some none, none, none, none, none, none, none, none, some none, none⟩

/-- The parsed form of a PUT body with every field omitted or null. -/
def emptyOverlayUpdate : OverlayUpdate := ⟨none, none, none, none, none, none, none, none, none, none⟩

/-- PUT body supplying only `x = 5`. -/
def xUpdateJson : UpdateJson :=
  ⟨none, none, some (some 5), none, none, none, none, none, none, none⟩

/-- The parsed form of `xUpdateJson`. -/
def xPayload : OverlayUpdate := ⟨none, none, some 5, none, none, none, none, none, none, none⟩

/-- The POST body of the spec's end-to-end scenario. -/
def sampleCreateJson : CreateJson :=
  ⟨some "Lower Third", some "text", some 0, some 80, some 100, some 20,
   none, none, some "Breaking News", none⟩

/-- The validated payload `sampleCreateJson` parses to. -/
def sampleParsedCreate : OverlayCreate :=
  ⟨"Lower Third", "text", 0, 80, 100, 20, 1, "#ff0000", some "Breaking News", true⟩

/-- A POST body with `opacity = 3/2`, outside [0, 1]. -/
def badCreateJson : CreateJson :=
  ⟨some "Lower Third", some "text", none, none, none, none, some (mkRat 3 2), none, none, none⟩

/-! ## Claims -/

/-- Claim C1, counterexample. The claim asserts Update distinguishes an
omitted field from one explicitly supplied as null. It is false: pydantic
parses both to `None` on the `OverlayUpdate` instance (`toOverlayUpdate`
collapses them), and the handler then drops every `None` entry, so no two
payloads that agree up to null-vs-omission can produce different results
for any store and id. -/
theorem update_cannot_distinguish_null_from_omitted :
    ¬ ∃ (j1 j2 : UpdateJson) (s : StoreState) (oid : Int),
        toOverlayUpdate j1 = toOverlayUpdate j2 ∧
        update_overlay s oid j1 ≠ update_overlay s oid j2 := by
  rintro ⟨j1, j2, s, oid, hsame, hne⟩
  have hp : parseUpdate j1 = parseUpdate j2 := by
    unfold parseUpdate
    rw [hsame]
  exact hne (by unfold update_overlay; rw [hp])

/-- Claim C1, amended: Update treats a field explicitly supplied as null
exactly like an omitted field — the result of Update depends only on the
null-collapsed payload, so "explicitly reset to empty" is not
expressible (field presence is not tracked independently of value). -/
theorem update_null_equals_omitted (j1 j2 : UpdateJson) (s : StoreState) (oid : Int)
    (h : toOverlayUpdate j1 = toOverlayUpdate j2) :
    update_overlay s oid j1 = update_overlay s oid j2 := by
  have hp : parseUpdate j1 = parseUpdate j2 := by
    unfold parseUpdate
    rw [h]
  unfold update_overlay
  rw [hp]

/-- Witness for the amended C1: a body with `name` and `content`
explicitly null behaves exactly like the empty body. -/
theorem update_null_equals_omitted_witness :
    toOverlayUpdate nullFieldsJson = toOverlayUpdate emptyUpdateJson ∧
    update_overlay sampleState 1 nullFieldsJson = update_overlay sampleState 1 emptyUpdateJson :=
  ⟨rfl, update_null_equals_omitted nullFieldsJson emptyUpdateJson sampleState 1 rfl⟩

/-- Claim C2: over any request sequence from the empty store, the ids
assigned by successful Create calls are strictly increasing (hence never
repeated), even interleaved with Delete calls. -/
theorem assigned_ids_strictly_increasing (ops : List Op) :
    (assignedIds initState ops).Pairwise (· < ·) ∧
    (assignedIds initState ops).Pairwise (· ≠ ·) :=
  ⟨assignedIds_pairwise_lt ops initState,
   (assignedIds_pairwise_lt ops initState).imp (fun h => ne_of_lt h)⟩

/-- Claim C4: a Create whose payload fails boundary validation (missing
required field, out-of-range number, bad string length) returns a
ValidationError and leaves the store exactly as it was: nothing is
appended and the id counter does not advance; an out-of-range `opacity`,
`name` or `x` in particular is rejected, never clamped. -/
theorem create_invalid_rejected (s : StoreState) (j : CreateJson) :
    (parseCreate j = none → create_overlay s j = (s, .error .validation)) ∧
    (∀ nm, j.name = some nm → validName nm = false →
      create_overlay s j = (s, .error .validation)) ∧
    (∀ q, j.opacity = some q → validOpacity q = false →
      create_overlay s j = (s, .error .validation)) ∧
    (∀ q, j.x = some q → validPct q = false →
      create_overlay s j = (s, .error .validation)) := by
  have conc : parseCreate j = none → create_overlay s j = (s, .error .validation) := by
    intro h
    simp only [create_overlay, h]
  refine ⟨conc, ?_, ?_, ?_⟩
  · intro nm hnm hbad
    refine conc ?_
    unfold parseCreate
    rw [hnm]
    cases hty : j.type with
    | none => rfl
    | some ty => simp [hbad]
  · intro q hq hbad
    refine conc ?_
    unfold parseCreate
    cases hna : j.name with
    | none => rfl
    | some nm =>
      cases hty : j.type with
      | none => rfl
      | some ty => simp [hq, checkOpt, hbad]
  · intro q hq hbad
    refine conc ?_
    unfold parseCreate
    cases hna : j.name with
    | none => rfl
    | some nm =>
      cases hty : j.type with
      | none => rfl
      | some ty => simp [hq, checkOpt, hbad]

/-- Witness for C4: `opacity = 3/2` is rejected with a ValidationError
and the store (overlays and counter) is unchanged. -/
theorem create_invalid_rejected_witness :
    parseCreate badCreateJson = none ∧
    create_overlay sampleState badCreateJson = (sampleState, .error .validation) :=
  ⟨by decide, (create_invalid_rejected sampleState badCreateJson).1 (by decide)⟩

/-- Claim C8: in every state reachable from the empty store by any
sequence of the five operations, stored ids are pairwise distinct and
every stored overlay satisfies all declarative field constraints. -/
theorem stored_overlays_always_valid (ops : List Op) :
    ((runOps ops).overlays.map Overlay.id).Pairwise (· ≠ ·) ∧
    ∀ o ∈ (runOps ops).overlays, overlayValid o = true := by
  obtain ⟨h1, h2, h3⟩ := WF_runOps ops
  exact ⟨h2, h1⟩

/-- Claim C3: updating an existing overlay O (decomposed as the first
occurrence of its id in the collection) with a valid partial payload
succeeds, stores and returns a single merged overlay in the same
position, keeps the id and every unsupplied field of O, and sets every
supplied field to the supplied value; the counter is untouched. -/
theorem update_partial_preserves_rest
    (s : StoreState) (l1 l2 : List Overlay) (O : Overlay) (j : UpdateJson) (p : OverlayUpdate)
    (hs : s.overlays = l1 ++ O :: l2)
    (hfirst : ∀ o ∈ l1, o.id ≠ O.id)
    (hOv : overlayValid O = true)
    (hj : parseUpdate j = some p) :
    ∃ u : Overlay,
      update_overlay s O.id j = (⟨l1 ++ u :: l2, s.nextId⟩, .ok u) ∧
      u.id = O.id ∧
      (p.name = none → u.name = O.name) ∧ (∀ v, p.name = some v → u.name = v) ∧
      (p.type = none → u.type = O.type) ∧ (∀ v, p.type = some v → u.type = v) ∧
      (p.x = none → u.x = O.x) ∧ (∀ v, p.x = some v → u.x = v) ∧
      (p.y = none → u.y = O.y) ∧ (∀ v, p.y = some v → u.y = v) ∧
      (p.w = none → u.w = O.w) ∧ (∀ v, p.w = some v → u.w = v) ∧
      (p.h = none → u.h = O.h) ∧ (∀ v, p.h = some v → u.h = v) ∧
      (p.opacity = none → u.opacity = O.opacity) ∧ (∀ v, p.opacity = some v → u.opacity = v) ∧
      (p.color = none → u.color = O.color) ∧ (∀ v, p.color = some v → u.color = v) ∧
      (p.content = none → u.content = O.content) ∧
      (∀ v, p.content = some v → u.content = some v) ∧
      (p.visible = none → u.visible = O.visible) ∧ (∀ v, p.visible = some v → u.visible = v) := by
  obtain ⟨hpe, hpv⟩ := parseUpdate_inv hj
  have hv : overlayValid (applyUpdate O p) = true := applyUpdate_valid hOv hpv
  have hL := updateLoop_found (p := p) l1 l2 rfl hfirst hv
  refine ⟨applyUpdate O p, ?_, rfl, ?_, ?_, ?_, ?_, ?_, ?_, ?_, ?_, ?_, ?_, ?_, ?_, ?_, ?_,
          ?_, ?_, ?_, ?_, ?_, ?_⟩
  · simp only [update_overlay, hj, hs, hL]
  all_goals first
    | (intro h; simp [applyUpdate, h])
    | (intro v h; simp [applyUpdate, h])

/-- Witness for C3: Update(1, {x := 5}) on the sample store keeps every
other field and the position of overlay 1. -/
theorem update_partial_preserves_rest_witness :
    ∃ u : Overlay,
      update_overlay sampleState 1 xUpdateJson =
        (⟨[u, sampleOverlay2, sampleOverlay3], 4⟩, .ok u) ∧
      u.x = 5 ∧ u.name = sampleOverlay1.name ∧ u.opacity = sampleOverlay1.opacity := by
  obtain ⟨u, heq, hid, hn1, hn2, ht1, ht2, hx1, hx2, hy1, hy2, hw1, hw2, hh1, hh2,
          ho1, ho2, hc1, hc2, hct1, hct2, hv1, hv2⟩ :=
    update_partial_preserves_rest sampleState [] [sampleOverlay2, sampleOverlay3]
      sampleOverlay1 xUpdateJson xPayload rfl (by simp) (by decide) (by decide)
  exact ⟨u, heq, hx2 5 rfl, hn1 rfl, ho1 rfl⟩

/-- Claim C5: Create followed by Get of the returned id yields exactly
the overlay Create returned, whenever every stored id is below the
counter (which holds in every reachable state). -/
theorem create_get_roundtrip (s s2 : StoreState) (j : CreateJson) (ov : Overlay)
    (hb : ∀ o ∈ s.overlays, o.id < s.nextId)
    (h : create_overlay s j = (s2, .ok ov)) :
    get_overlay s2 ov.id = .ok ov := by
  obtain ⟨hid, hnext, hovl⟩ := create_ok_inv h
  have hne : ∀ o ∈ s.overlays, o.id ≠ ov.id := by
    intro o ho
    rw [hid]
    exact ne_of_lt (hb o ho)
  unfold get_overlay
  rw [hovl, getLoop_append_of_no_match hne [ov]]
  simp [getLoop]

/-- Witness for C5: creating the spec's scenario overlay in the empty
store and reading id 1 back returns it. -/
theorem create_get_roundtrip_witness :
    get_overlay ⟨[sampleOverlay1], 2⟩ 1 = .ok sampleOverlay1 :=
  create_get_roundtrip initState ⟨[sampleOverlay1], 2⟩ sampleCreateJson sampleOverlay1
    (by simp [initState]) rfl

/-- Claim C6: a valid Create appends exactly one overlay at the end of
the collection, assigns it the current counter value as id (the counter
starts at 1 and advances by exactly 1), fills every omitted field with
its declared default, returns the created overlay, and has no error
path once the payload parsed. -/
theorem create_success_spec (s : StoreState) (j : CreateJson) (p : OverlayCreate)
    (h : parseCreate j = some p) :
    create_overlay s j =
      (⟨s.overlays ++ [mkOverlay s.nextId p], s.nextId + 1⟩, .ok (mkOverlay s.nextId p)) ∧
    (mkOverlay s.nextId p).id = s.nextId ∧ initState.nextId = 1 ∧
    (j.x = none → p.x = 10) ∧ (j.y = none → p.y = 10) ∧
    (j.w = none → p.w = 20) ∧ (j.h = none → p.h = 10) ∧
    (j.opacity = none → p.opacity = 1) ∧ (j.color = none → p.color = "#ff0000") ∧
    (j.visible = none → p.visible = true) ∧ p.content = j.content := by
  obtain ⟨hx, hy, hw, hh, hop, hc, hcon, hvis, hvalid⟩ := parseCreate_inv h
  refine ⟨?_, rfl, rfl, ?_, ?_, ?_, ?_, ?_, ?_, ?_, hcon⟩
  · simp [create_overlay, h, hvalid s.nextId]
  · intro h0; rw [hx, h0]; rfl
  · intro h0; rw [hy, h0]; rfl
  · intro h0; rw [hw, h0]; rfl
  · intro h0; rw [hh, h0]; rfl
  · intro h0; rw [hop, h0]; rfl
  · intro h0; rw [hc, h0]; rfl
  · intro h0; rw [hvis, h0]; rfl

/-- Witness for C6: the spec's scenario POST on the fresh store creates
id 1 with `opacity`, `color`, `visible` filled from defaults. -/
theorem create_success_spec_witness :
    create_overlay initState sampleCreateJson = (⟨[sampleOverlay1], 2⟩, .ok sampleOverlay1) ∧
    sampleParsedCreate.opacity = 1 ∧ sampleParsedCreate.color = "#ff0000" ∧
    sampleParsedCreate.visible = true := by
  obtain ⟨he, hid, hinit, hx, hy, hw, hh, hop, hc, hv, hcont⟩ :=
    create_success_spec initState sampleCreateJson sampleParsedCreate (by decide)
  exact ⟨he, hop rfl, hc rfl, hv rfl⟩

/-- Claim C7: deleting an existing id removes exactly that one overlay
(the collection shrinks by one, remaining order untouched), returns
success with no body, and a subsequent Get of the id fails with
NotFoundError; deleting an absent id reports not-found and changes
nothing. -/
theorem delete_removes_exactly_one (s : StoreState) (oid : Int) :
    (∀ l1 O l2, s.overlays = l1 ++ O :: l2 → O.id = oid →
      (∀ o ∈ l1, o.id ≠ oid) → (∀ o ∈ l2, o.id ≠ oid) →
      delete_overlay s oid = (⟨l1 ++ l2, s.nextId⟩, .ok ()) ∧
      s.overlays.length = (l1 ++ l2).length + 1 ∧
      get_overlay ⟨l1 ++ l2, s.nextId⟩ oid = .error .notFound) ∧
    ((∀ o ∈ s.overlays, o.id ≠ oid) → delete_overlay s oid = (s, .error .notFound)) := by
  constructor
  · intro l1 O l2 hs hO h1 h2
    have hd := deleteLoop_found l1 l2 hO h1
    refine ⟨?_, ?_, ?_⟩
    · simp only [delete_overlay, hs, hd]
    · rw [hs]
      simp only [List.length_append, List.length_cons]
      omega
    · unfold get_overlay
      rw [show (⟨l1 ++ l2, s.nextId⟩ : StoreState).overlays = l1 ++ l2 from rfl,
          getLoop_append_of_no_match h1 l2]
      exact getLoop_no_match h2
  · intro h
    simp only [delete_overlay, deleteLoop_no_match h]

/-- Witness for C7: with ids [1,2,3], Delete(2) leaves [1,3] in order
and Get(2) then fails; Delete(9) is a no-op with not-found. -/
theorem delete_removes_exactly_one_witness :
    delete_overlay sampleState 2 = (⟨[sampleOverlay1, sampleOverlay3], 4⟩, .ok ()) ∧
    get_overlay ⟨[sampleOverlay1, sampleOverlay3], 4⟩ 2 = .error .notFound ∧
    delete_overlay sampleState 9 = (sampleState, .error .notFound) := by
  have h := (delete_removes_exactly_one sampleState 2).1 [sampleOverlay1] sampleOverlay2
    [sampleOverlay3] rfl rfl (by decide) (by decide)
  have h9 := (delete_removes_exactly_one sampleState 9).2 (by decide)
  exact ⟨h.1, h.2.2, h9⟩

lemma applyUpdate_empty (ov : Overlay) : applyUpdate ov emptyOverlayUpdate = ov := rfl

lemma updateLoop_empty_payload {oid : Int} {l : List Overlay} {O : Overlay}
    (hval : ∀ o ∈ l, overlayValid o = true)
    (hget : getLoop oid l = .ok O) :
    updateLoop oid emptyOverlayUpdate l = .ok (O, l) := by
  induction l with
  | nil => simp [getLoop] at hget
  | cons ov rest ih =>
    rw [getLoop] at hget
    rw [updateLoop]
    by_cases hid : ov.id = oid
    · rw [if_pos hid] at hget ⊢
      injection hget with hget
      subst hget
      simp [applyUpdate_empty, hval ov (List.mem_cons_self ov rest)]
    · rw [if_neg hid] at hget ⊢
      rw [ih (fun o ho => hval o (List.mem_cons_of_mem _ ho)) hget]

/-- Claim C9: updating an existing overlay with the empty partial
payload succeeds, returns the stored overlay unchanged, and is the
identity on the whole store state (collection and counter), provided
every stored overlay is valid (which holds in every reachable state). -/
theorem update_empty_payload_identity (s : StoreState) (oid : Int) (O : Overlay)
    (hval : ∀ o ∈ s.overlays, overlayValid o = true)
    (hget : get_overlay s oid = .ok O) :
    update_overlay s oid emptyUpdateJson = (s, .ok O) := by
  have hparse : parseUpdate emptyUpdateJson = some emptyOverlayUpdate := rfl
  have hloop := updateLoop_empty_payload hval hget
  simp only [update_overlay, hparse, hloop]

/-- Witness for C9: an all-omitted PUT body on id 2 of the sample store
returns overlay 2 and leaves the store exactly as it was. -/
theorem update_empty_payload_identity_witness :
    update_overlay sampleState 2 emptyUpdateJson = (sampleState, .ok sampleOverlay2) :=
  update_empty_payload_identity sampleState 2 sampleOverlay2 (by decide) rfl

/-- Claim C10: merging any valid update payload onto any valid stored
overlay always yields a candidate satisfying every Overlay constraint,
so the re-validation step of Update never fails: with a valid payload
the only error Update can return is not-found. -/
theorem update_merge_always_valid (s : StoreState) (oid : Int) (j : UpdateJson) (p : OverlayUpdate)
    (hval : ∀ o ∈ s.overlays, overlayValid o = true)
    (hj : parseUpdate j = some p) :
    (∀ o ∈ s.overlays, overlayValid (applyUpdate o p) = true) ∧
    (∀ e, (update_overlay s oid j).2 = .error e → e = .notFound) := by
  obtain ⟨hpe, hpv⟩ := parseUpdate_inv hj
  have hmv : ∀ o ∈ s.overlays, overlayValid (applyUpdate o p) = true :=
    fun o ho => applyUpdate_valid (hval o ho) hpv
  refine ⟨hmv, ?_⟩
  intro e he
  simp only [update_overlay, hj] at he
  cases hl : updateLoop oid p s.overlays with
  | ok pr =>
    obtain ⟨u, l⟩ := pr
    rw [hl] at he
    simp at he
  | error e2 =>
    rw [hl] at he
    dsimp only at he
    injection he with he
    rw [← he]
    exact updateLoop_error hmv hl

/-- Witness for C10: merging {x := 5} onto overlay 1 stays valid, and an
Update of an unknown id with that payload can only fail not-found. -/
theorem update_merge_always_valid_witness :
    overlayValid (applyUpdate sampleOverlay1 xPayload) = true ∧
    (∀ e, (update_overlay sampleState 99 xUpdateJson).2 = .error e → e = .notFound) := by
  have h := update_merge_always_valid sampleState 99 xUpdateJson xPayload (by decide) (by decide)
  exact ⟨h.1 sampleOverlay1 (by decide), h.2⟩

end OverlayAPI
